import Mathlib

/-!
Verification of the go-construct binary codec library.

The library (src/construct.go) is a declarative binary codec: a `Field`
interface with `Parse(r io.Reader) (any, error)` and
`Build(w io.Writer, v any) error`, fixed-width scalar fields, a fixed-length
`Bytes` block, a null-padded fixed-length `String`, and two composites:
`Struct` (ordered heterogeneous list of fields) and `Array` (fixed count of
one repeated field).

Shallow embedding conventions:
- A byte stream is a `List Nat` (each element a byte value `< 256`).
- `Parse` becomes a function `List Nat → Except GoErr Value × List Nat`:
  the result (value or error) together with the stream that remains after
  the call.  Returning the remainder even on error lets us state the
  "no rollback of consumed bytes" properties of the spec.
- `Build` becomes `Value → Except GoErr Unit × List Nat`: the result
  together with the bytes written to the sink (also kept on error, to state
  the "no rollback of written bytes" properties).  Writing to a
  `bytes.Buffer` sink never fails in Go, so the sink itself raises no error.
- Go `any` values are modelled by the closed variant `Value` covering the
  runtime types the library produces: the fixed-width integers, the two
  floats, `[]byte`, `string` (as its byte sequence) and `[]any`.
  Go's `byte` is an alias of `uint8`, so both share `Value.uint8`.
- Machine integers are `Int`/`Nat` with explicit reduction mod `2^w` at the
  points where the Go code fixes the width.  The two float fields move the
  IEEE bit pattern unchanged between stream and value
  (`binary.Read`/`binary.Write` via `math.Float32bits`), so a float value
  is modelled by its bit pattern, a `Nat` below `2^32` / `2^64`.
- `binary.Read` and `io.ReadFull` on a short source return `io.EOF` when
  the source is empty and `io.ErrUnexpectedEOF` when it holds some but not
  enough bytes, after consuming everything available; `readFull` models
  exactly that.  Errors made with `errors.New` are modelled by `GoErr.msg`
  holding the source's message string.
-/

namespace Construct

/-- Errors the library can surface: the two short-read sentinels of the Go
standard library, the `errors.New` messages of construct.go, and the
signature-mismatch failure of the spec's Signature/Const field. -/
inductive GoErr where
  | eof
  | unexpectedEOF
  | msg (s : String)
  | signatureMismatch
deriving DecidableEq, Repr

/-- The dynamically-typed values (`any`) that Parse produces and Build
consumes: fixed-width integers (signed as `Int`, unsigned as `Nat`),
floats by their IEEE bit pattern, byte blocks, strings as byte sequences,
and the `[]any` sequences of composites. -/
inductive Value where
  | int8 (v : Int)
  | int16 (v : Int)
  | int32 (v : Int)
  | int64 (v : Int)
  | uint8 (v : Nat)
  | uint16 (v : Nat)
  | uint32 (v : Nat)
  | uint64 (v : Nat)
  | float32 (bits : Nat)
  | float64 (bits : Nat)
  | bytes (bs : List Nat)
  | str (s : List Nat)
  | list (vs : List Value)

/-- The field descriptors of construct.go, plus `Byte` (referenced by the
repository's tests and README but not defined under src/) and the spec's
Enum and Signature fields (also absent from src/); see their cases in
`parseF`/`buildF` for the modelling notes. -/
inductive Field where
  | Int8
  | Uint8
  | Int16be
  | Int16le
  | Uint16be
  | Uint16le
  | Int32be
  | Int32le
  | Uint32be
  | Uint32le
  | Int64be
  | Uint64be
  | Float32be
  | Float64be
  | Bytes (length : Nat)
  | String (length : Nat)
  | Struct (fields : List Field)
  | Array (count : Nat) (field : Field)
  | Byte
  | Enum (sub : Field) (mapping : List (Int × List Nat))
  | Signature (expected : List Nat)

/-- `io.ReadFull r buf` for an `n`-byte buffer over a sequential source:
on success the first `n` bytes are returned and consumed; a too-short
source is drained and reports `io.EOF` when it was empty, else
`io.ErrUnexpectedEOF`.  `binary.Read` performs exactly this read before
reinterpreting the bytes. -/
def readFull (n : Nat) (input : List Nat) : Except GoErr (List Nat) × List Nat :=
  if n ≤ input.length then (.ok (input.take n), input.drop n)
  else if input = [] then (.error .eof, [])
  else (.error .unexpectedEOF, [])

/-- Big-endian bytes of `v`, `w` bytes wide (most significant first), as
`binary.BigEndian` lays them out. -/
def beBytes : Nat → Nat → List Nat
  | 0, _ => []
  | w + 1, v => beBytes w (v / 256) ++ [v % 256]

/-- Little-endian bytes of `v`, `w` bytes wide (least significant first). -/
def leBytes : Nat → Nat → List Nat
  | 0, _ => []
  | w + 1, v => v % 256 :: leBytes w (v / 256)

/-- The unsigned value of a big-endian byte sequence. -/
def beVal (bs : List Nat) : Nat := bs.foldl (fun acc b => acc * 256 + b) 0

/-- The unsigned value of a little-endian byte sequence. -/
def leVal : List Nat → Nat
  | [] => 0
  | b :: bs => b + 256 * leVal bs

/-- The `w`-bit two's-complement machine representation of the signed
integer `i`, as an unsigned value below `2 ^ w`. -/
def toUnsigned (w : Nat) (i : Int) : Nat := (i % ((2 : Int) ^ w)).toNat

/-- Reinterpret the unsigned `w`-bit value `n` as a two's-complement signed
integer, as `binary.Read` into a signed variable does. -/
def fromUnsigned (w : Nat) (n : Nat) : Int :=
  if n < 2 ^ (w - 1) then (n : Int) else (n : Int) - 2 ^ w

/-- `bytes.TrimRight buf "\x00"`: remove the trailing run of zero bytes. -/
def trimRightZeros (l : List Nat) : List Nat :=
  (l.reverse.dropWhile (fun b => b == 0)).reverse

/-- The spec's widening of a decoded integer value to the common signed
64-bit key space of an Enum mapping; `none` on a non-integer value. -/
def valueToInt : Value → Option Int
  | .int8 i => some i
  | .int16 i => some i
  | .int32 i => some i
  | .int64 i => some i
  | .uint8 n => some (n : Int)
  | .uint16 n => some (n : Int)
  | .uint32 n => some (n : Int)
  | .uint64 n => some (fromUnsigned 64 n)
  | _ => none

/-- One scalar `Parse`: `binary.Read` reads `w` bytes with `io.ReadFull`
and reinterprets them with `dec`; a read failure is returned unchanged. -/
def parseScalar (w : Nat) (dec : List Nat → Value) (input : List Nat) :
    Except GoErr Value × List Nat :=
  match readFull w input with
  | (.ok bs, rest) => (.ok (dec bs), rest)
  | (.error e, rest) => (.error e, rest)

mutual

/-- `Parse` of every field descriptor, one case per method in
construct.go.  The `Byte`, `Enum` and `Signature` cases are modelled from
the spec: those fields are not under src/ (only the tests and README use
`Byte`); `Byte` reads one raw byte (Go `byte` = `uint8`), `Enum` runs its
sub-field and projects the decoded integer through its mapping with a
lenient fallback, `Signature` reads the expected number of bytes and
compares them byte-for-byte. -/
def parseF : Field → List Nat → Except GoErr Value × List Nat
  | .Int8, input => parseScalar 1 (fun bs => .int8 (fromUnsigned 8 (beVal bs))) input
  | .Uint8, input => parseScalar 1 (fun bs => .uint8 (beVal bs)) input
  | .Int16be, input => parseScalar 2 (fun bs => .int16 (fromUnsigned 16 (beVal bs))) input
  | .Int16le, input => parseScalar 2 (fun bs => .int16 (fromUnsigned 16 (leVal bs))) input
  | .Uint16be, input => parseScalar 2 (fun bs => .uint16 (beVal bs)) input
  | .Uint16le, input => parseScalar 2 (fun bs => .uint16 (leVal bs)) input
  | .Int32be, input => parseScalar 4 (fun bs => .int32 (fromUnsigned 32 (beVal bs))) input
  | .Int32le, input => parseScalar 4 (fun bs => .int32 (fromUnsigned 32 (leVal bs))) input
  | .Uint32be, input => parseScalar 4 (fun bs => .uint32 (beVal bs)) input
  | .Uint32le, input => parseScalar 4 (fun bs => .uint32 (leVal bs)) input
  | .Int64be, input => parseScalar 8 (fun bs => .int64 (fromUnsigned 64 (beVal bs))) input
  | .Uint64be, input => parseScalar 8 (fun bs => .uint64 (beVal bs)) input
  | .Float32be, input => parseScalar 4 (fun bs => .float32 (beVal bs)) input
  | .Float64be, input => parseScalar 8 (fun bs => .float64 (beVal bs)) input
  | .Byte, input => parseScalar 1 (fun bs => .uint8 (beVal bs)) input
  | .Bytes n, input =>
    match readFull n input with
    | (.ok bs, rest) => (.ok (.bytes bs), rest)
    | (.error e, rest) => (.error e, rest)
  | .String n, input =>
    match readFull n input with
    | (.ok bs, rest) => (.ok (.str (trimRightZeros bs)), rest)
    | (.error e, rest) => (.error e, rest)
  | .Struct fs, input =>
    match parseFields fs input with
    | (.ok vs, rest) => (.ok (.list vs), rest)
    | (.error e, rest) => (.error e, rest)
  | .Array n f, input =>
    match parseArray f n input with
    | (.ok vs, rest) => (.ok (.list vs), rest)
    | (.error e, rest) => (.error e, rest)
  | .Enum sub mapping, input =>
    match parseF sub input with
    | (.ok v, rest) =>
      match valueToInt v with
      | some key =>
        match mapping.lookup key with
        | some name => (.ok (.str name), rest)
        | none => (.ok v, rest)
      | none => (.ok v, rest)
    | (.error e, rest) => (.error e, rest)
  | .Signature expected, input =>
    match readFull expected.length input with
    | (.ok bs, rest) =>
      if bs = expected then (.ok (.bytes bs), rest)
      else (.error .signatureMismatch, rest)
    | (.error e, rest) => (.error e, rest)

/-- The field loop of `Struct.Parse`: parse each field in declaration
order against the shared stream position, aborting on the first failure. -/
def parseFields : List Field → List Nat → Except GoErr (List Value) × List Nat
  | [], input => (.ok [], input)
  | f :: fs, input =>
    match parseF f input with
    | (.ok v, rest) =>
      match parseFields fs rest with
      | (.ok vs, rest2) => (.ok (v :: vs), rest2)
      | (.error e, rest2) => (.error e, rest2)
    | (.error e, rest) => (.error e, rest)

/-- The counting loop of `Array.Parse`: parse the element field `n` times,
aborting on the first failure. -/
def parseArray (f : Field) : Nat → List Nat → Except GoErr (List Value) × List Nat
  | 0, input => (.ok [], input)
  | n + 1, input =>
    match parseF f input with
    | (.ok v, rest) =>
      match parseArray f n rest with
      | (.ok vs, rest2) => (.ok (v :: vs), rest2)
      | (.error e, rest2) => (.error e, rest2)
    | (.error e, rest) => (.error e, rest)

end

mutual

/-- `Build` of every field descriptor, one case per method in
construct.go: a runtime type assertion on the supplied value (failing
with the exact `errors.New` message of the source), then the bytes the
field writes.  `Byte` is modelled from the spec (one raw byte; Go `byte`
is `uint8`); `Enum` encode delegates directly to its sub-field with the
supplied raw integer (no reverse lookup); `Signature` encode ignores the
supplied value and always emits the configured bytes. -/
def buildF : Field → Value → Except GoErr Unit × List Nat
  | .Int8, v =>
    match v with
    | .int8 i => (.ok (), beBytes 1 (toUnsigned 8 i))
    | _ => (.error (.msg "expected int8"), [])
  | .Uint8, v =>
    match v with
    | .uint8 n => (.ok (), beBytes 1 (n % 2 ^ 8))
    | _ => (.error (.msg "expected uint8"), [])
  | .Int16be, v =>
    match v with
    | .int16 i => (.ok (), beBytes 2 (toUnsigned 16 i))
    | _ => (.error (.msg "expected int16"), [])
  | .Int16le, v =>
    match v with
    | .int16 i => (.ok (), leBytes 2 (toUnsigned 16 i))
    | _ => (.error (.msg "expected int16"), [])
  | .Uint16be, v =>
    match v with
    | .uint16 n => (.ok (), beBytes 2 (n % 2 ^ 16))
    | _ => (.error (.msg "expected uint16"), [])
  | .Uint16le, v =>
    match v with
    | .uint16 n => (.ok (), leBytes 2 (n % 2 ^ 16))
    | _ => (.error (.msg "expected uint16"), [])
  | .Int32be, v =>
    match v with
    | .int32 i => (.ok (), beBytes 4 (toUnsigned 32 i))
    | _ => (.error (.msg "expected int32"), [])
  | .Int32le, v =>
    match v with
    | .int32 i => (.ok (), leBytes 4 (toUnsigned 32 i))
    | _ => (.error (.msg "expected int32"), [])
  | .Uint32be, v =>
    match v with
    | .uint32 n => (.ok (), beBytes 4 (n % 2 ^ 32))
    | _ => (.error (.msg "expected uint32"), [])
  | .Uint32le, v =>
    match v with
    | .uint32 n => (.ok (), leBytes 4 (n % 2 ^ 32))
    | _ => (.error (.msg "expected uint32"), [])
  | .Int64be, v =>
    match v with
    | .int64 i => (.ok (), beBytes 8 (toUnsigned 64 i))
    | _ => (.error (.msg "expected int64"), [])
  | .Uint64be, v =>
    match v with
    | .uint64 n => (.ok (), beBytes 8 (n % 2 ^ 64))
    | _ => (.error (.msg "expected uint64"), [])
  | .Float32be, v =>
    match v with
    | .float32 bits => (.ok (), beBytes 4 (bits % 2 ^ 32))
    | _ => (.error (.msg "expected float32"), [])
  | .Float64be, v =>
    match v with
    | .float64 bits => (.ok (), beBytes 8 (bits % 2 ^ 64))
    | _ => (.error (.msg "expected float64"), [])
  | .Byte, v =>
    match v with
    | .uint8 n => (.ok (), beBytes 1 (n % 2 ^ 8))
    | _ => (.error (.msg "expected byte"), [])
  | .Bytes n, v =>
    match v with
    | .bytes data =>
      if data.length = n then (.ok (), data)
      else (.error (.msg "byte slice length mismatch"), [])
    | _ => (.error (.msg "expected []byte"), [])
  | .String n, v =>
    match v with
    | .str s => (.ok (), s.take n ++ List.replicate (n - s.length) 0)
    | _ => (.error (.msg "expected string"), [])
  | .Struct fs, v =>
    match v with
    | .list vs =>
      if vs.length = fs.length then buildFields fs vs
      else (.error (.msg "mismatch between struct fields and provided values"), [])
    | _ => (.error (.msg "struct requires []any value"), [])
  | .Array n f, v =>
    match v with
    | .list vs =>
      if vs.length = n then buildArray f vs
      else (.error (.msg "array length mismatch"), [])
    | _ => (.error (.msg "array requires []any value"), [])
  | .Enum sub _, v => buildF sub v
  | .Signature expected, _ => (.ok (), expected)

/-- The field loop of `Struct.Build`: build each value with its field in
order, aborting on the first failure; bytes already written stay in the
sink. -/
def buildFields : List Field → List Value → Except GoErr Unit × List Nat
  | [], _ => (.ok (), [])
  | _ :: _, [] => (.ok (), [])
  | f :: fs, v :: vs =>
    match buildF f v with
    | (.ok _, out) =>
      match buildFields fs vs with
      | (.ok _, out2) => (.ok (), out ++ out2)
      | (.error e, out2) => (.error e, out ++ out2)
    | (.error e, out) => (.error e, out)

/-- The element loop of `Array.Build`: build each supplied value with the
element field in order, aborting on the first failure. -/
def buildArray : Field → List Value → Except GoErr Unit × List Nat
  | _, [] => (.ok (), [])
  | f, v :: vs =>
    match buildF f v with
    | (.ok _, out) =>
      match buildArray f vs with
      | (.ok _, out2) => (.ok (), out ++ out2)
      | (.error e, out2) => (.error e, out ++ out2)
    | (.error e, out) => (.error e, out)

end

/-- The declared Go type and range of a scalar field's values: `true`
exactly when `v` is a value of the Go type the field's `Build` accepts
(its type assertion) and lies in that machine type's range.  `false` on
every non-scalar field. -/
def fitsField : Field → Value → Bool
  | .Int8, .int8 i => decide (-(2 ^ 7) ≤ i ∧ i < 2 ^ 7)
  | .Uint8, .uint8 n => decide (n < 2 ^ 8)
  | .Int16be, .int16 i => decide (-(2 ^ 15) ≤ i ∧ i < 2 ^ 15)
  | .Int16le, .int16 i => decide (-(2 ^ 15) ≤ i ∧ i < 2 ^ 15)
  | .Uint16be, .uint16 n => decide (n < 2 ^ 16)
  | .Uint16le, .uint16 n => decide (n < 2 ^ 16)
  | .Int32be, .int32 i => decide (-(2 ^ 31) ≤ i ∧ i < 2 ^ 31)
  | .Int32le, .int32 i => decide (-(2 ^ 31) ≤ i ∧ i < 2 ^ 31)
  | .Uint32be, .uint32 n => decide (n < 2 ^ 32)
  | .Uint32le, .uint32 n => decide (n < 2 ^ 32)
  | .Int64be, .int64 i => decide (-(2 ^ 63) ≤ i ∧ i < 2 ^ 63)
  | .Uint64be, .uint64 n => decide (n < 2 ^ 64)
  | .Float32be, .float32 b => decide (b < 2 ^ 32)
  | .Float64be, .float64 b => decide (b < 2 ^ 64)
  | _, _ => false

/-- The fourteen scalar field descriptors of construct.go. -/
def isScalar : Field → Bool
  | .Int8 | .Uint8 | .Int16be | .Int16le | .Uint16be | .Uint16le
  | .Int32be | .Int32le | .Uint32be | .Uint32le | .Int64be | .Uint64be
  | .Float32be | .Float64be => true
  | _ => false

/-- Whether the supplied value's runtime type is the one the scalar
field's `Build` type assertion accepts (tag only, no range condition:
a Go value of the right type is always in range). -/
def typeMatches : Field → Value → Bool
  | .Int8, .int8 _ => true
  | .Uint8, .uint8 _ => true
  | .Int16be, .int16 _ => true
  | .Int16le, .int16 _ => true
  | .Uint16be, .uint16 _ => true
  | .Uint16le, .uint16 _ => true
  | .Int32be, .int32 _ => true
  | .Int32le, .int32 _ => true
  | .Uint32be, .uint32 _ => true
  | .Uint32le, .uint32 _ => true
  | .Int64be, .int64 _ => true
  | .Uint64be, .uint64 _ => true
  | .Float32be, .float32 _ => true
  | .Float64be, .float64 _ => true
  | _, _ => false

/-- The `errors.New` message each scalar field's `Build` raises on a
failed type assertion (empty for non-scalar fields). -/
def scalarTypeMsg : Field → String
  | .Int8 => "expected int8"
  | .Uint8 => "expected uint8"
  | .Int16be => "expected int16"
  | .Int16le => "expected int16"
  | .Uint16be => "expected uint16"
  | .Uint16le => "expected uint16"
  | .Int32be => "expected int32"
  | .Int32le => "expected int32"
  | .Uint32be => "expected uint32"
  | .Uint32le => "expected uint32"
  | .Int64be => "expected int64"
  | .Uint64be => "expected uint64"
  | .Float32be => "expected float32"
  | .Float64be => "expected float64"
  | _ => ""

section Helpers

lemma beBytes_length (w v : Nat) : (beBytes w v).length = w := by
  induction w generalizing v with
  | zero => rfl
  | succ w ih => simp [beBytes, ih]

lemma leBytes_length (w v : Nat) : (leBytes w v).length = w := by
  induction w generalizing v with
  | zero => rfl
  | succ w ih => simp [leBytes, ih]

lemma beVal_append (bs : List Nat) (b : Nat) :
    beVal (bs ++ [b]) = beVal bs * 256 + b := by
  simp [beVal, List.foldl_append]

lemma beVal_beBytes (w v : Nat) (h : v < 256 ^ w) : beVal (beBytes w v) = v := by
  induction w generalizing v with
  | zero =>
    have : v = 0 := by simpa using h
    simp [this, beBytes, beVal]
  | succ w ih =>
    rw [beBytes, beVal_append, ih (v / 256) ?hdiv]
    · omega
    case hdiv =>
      rw [pow_succ] at h
      exact (Nat.div_lt_iff_lt_mul (by norm_num)).mpr h

lemma leVal_leBytes (w v : Nat) (h : v < 256 ^ w) : leVal (leBytes w v) = v := by
  induction w generalizing v with
  | zero =>
    have : v = 0 := by simpa using h
    simp [this, leBytes, leVal]
  | succ w ih =>
    rw [leBytes, leVal, ih (v / 256) ?hdiv]
    · omega
    case hdiv =>
      rw [pow_succ] at h
      exact (Nat.div_lt_iff_lt_mul (by norm_num)).mpr h

lemma readFull_exact (bs rest : List Nat) :
    readFull bs.length (bs ++ rest) = (.ok bs, rest) := by
  unfold readFull
  rw [if_pos (by simp)]
  rw [List.take_left, List.drop_left]

lemma readFull_all (bs : List Nat) : readFull bs.length bs = (.ok bs, []) := by
  have := readFull_exact bs []
  simpa using this

lemma parseScalar_exact (w : Nat) (dec : List Nat → Value) (bs : List Nat)
    (hb : bs.length = w) : parseScalar w dec bs = (.ok (dec bs), []) := by
  subst hb
  simp [parseScalar, readFull_all]

lemma toUnsigned_lt (w : Nat) (i : Int) : toUnsigned w i < 2 ^ w := by
  unfold toUnsigned
  have hc : (((2 : Nat) ^ w : Nat) : Int) = (2 : Int) ^ w := by push_cast; ring
  have h0 : (0 : Int) < 2 ^ w := by positivity
  have h1 := Int.emod_lt_of_pos i h0
  have h2 := Int.emod_nonneg i (ne_of_gt h0)
  generalize hX : (2 : Int) ^ w = X at *
  generalize hN : (2 : Nat) ^ w = N at *
  omega

lemma signedRound8 (i : Int) (h1 : -(2 ^ 7) ≤ i) (h2 : i < 2 ^ 7) :
    fromUnsigned 8 (toUnsigned 8 i) = i := by
  unfold fromUnsigned toUnsigned
  norm_num at h1 h2 ⊢
  split <;> omega

lemma signedRound16 (i : Int) (h1 : -(2 ^ 15) ≤ i) (h2 : i < 2 ^ 15) :
    fromUnsigned 16 (toUnsigned 16 i) = i := by
  unfold fromUnsigned toUnsigned
  norm_num at h1 h2 ⊢
  split <;> omega

lemma signedRound32 (i : Int) (h1 : -(2 ^ 31) ≤ i) (h2 : i < 2 ^ 31) :
    fromUnsigned 32 (toUnsigned 32 i) = i := by
  unfold fromUnsigned toUnsigned
  norm_num at h1 h2 ⊢
  split <;> omega

lemma signedRound64 (i : Int) (h1 : -(2 ^ 63) ≤ i) (h2 : i < 2 ^ 63) :
    fromUnsigned 64 (toUnsigned 64 i) = i := by
  unfold fromUnsigned toUnsigned
  norm_num at h1 h2 ⊢
  split <;> omega

lemma toUnsigned8_lt (i : Int) : toUnsigned 8 i < 256 ^ 1 := by
  have := toUnsigned_lt 8 i; norm_num at this ⊢; omega

lemma toUnsigned16_lt (i : Int) : toUnsigned 16 i < 256 ^ 2 := by
  have := toUnsigned_lt 16 i; norm_num at this ⊢; omega

lemma toUnsigned32_lt (i : Int) : toUnsigned 32 i < 256 ^ 4 := by
  have := toUnsigned_lt 32 i; norm_num at this ⊢; omega

lemma toUnsigned64_lt (i : Int) : toUnsigned 64 i < 256 ^ 8 := by
  have := toUnsigned_lt 64 i; norm_num at this ⊢; omega

lemma parseFields_ok_then_error :
    ∀ (pre : List Field) (f : Field) (post : List Field) (input : List Nat)
      (vs : List Value) (rest : List Nat) (e : GoErr) (rest2 : List Nat),
    parseFields pre input = (.ok vs, rest) →
    parseF f rest = (.error e, rest2) →
    parseFields (pre ++ f :: post) input = (.error e, rest2) := by
  intro pre
  induction pre with
  | nil =>
    intro f post input vs rest e rest2 h1 h2
    simp only [parseFields, Prod.mk.injEq] at h1
    obtain ⟨-, h1b⟩ := h1
    subst h1b
    simp [parseFields, h2]
  | cons g gs ih =>
    intro f post input vs rest e rest2 h1 h2
    simp only [parseFields] at h1
    rcases hg : parseF g input with ⟨rg, r1⟩
    simp only [hg] at h1
    cases rg with
    | error e0 => simp at h1
    | ok v =>
      rcases hgs : parseFields gs r1 with ⟨rgs, rr⟩
      simp only [hgs] at h1
      cases rgs with
      | error e0 => simp at h1
      | ok vs1 =>
        simp only [Prod.mk.injEq, Except.ok.injEq] at h1
        obtain ⟨-, h1b⟩ := h1
        subst h1b
        rw [List.cons_append]
        simp [parseFields, hg, ih f post r1 vs1 rr e rest2 hgs h2]

lemma parseArray_ok_then_error :
    ∀ (f : Field) (k m : Nat) (input : List Nat) (vs : List Value)
      (rest : List Nat) (e : GoErr) (rest2 : List Nat),
    parseArray f k input = (.ok vs, rest) →
    parseF f rest = (.error e, rest2) →
    parseArray f (k + (m + 1)) input = (.error e, rest2) := by
  intro f k
  induction k with
  | zero =>
    intro m input vs rest e rest2 h1 h2
    simp only [parseArray, Prod.mk.injEq] at h1
    obtain ⟨-, h1b⟩ := h1
    subst h1b
    rw [Nat.zero_add]
    simp [parseArray, h2]
  | succ k ih =>
    intro m input vs rest e rest2 h1 h2
    simp only [parseArray] at h1
    rcases hg : parseF f input with ⟨rg, r1⟩
    simp only [hg] at h1
    cases rg with
    | error e0 => simp at h1
    | ok v =>
      rcases hgs : parseArray f k r1 with ⟨rgs, rr⟩
      simp only [hgs] at h1
      cases rgs with
      | error e0 => simp at h1
      | ok vs1 =>
        simp only [Prod.mk.injEq, Except.ok.injEq] at h1
        obtain ⟨-, h1b⟩ := h1
        subst h1b
        have hk : k + 1 + (m + 1) = (k + (m + 1)) + 1 := by omega
        rw [hk]
        simp [parseArray, hg, ih m r1 vs1 rr e rest2 hgs h2]

lemma buildFields_ok_then_error :
    ∀ (pre : List Field) (vpre : List Value) (f : Field) (v : Value)
      (post : List Field) (vpost : List Value) (out : List Nat) (e : GoErr)
      (out2 : List Nat),
    vpre.length = pre.length →
    buildFields pre vpre = (.ok (), out) →
    buildF f v = (.error e, out2) →
    buildFields (pre ++ f :: post) (vpre ++ v :: vpost) = (.error e, out ++ out2) := by
  intro pre
  induction pre with
  | nil =>
    intro vpre f v post vpost out e out2 hlen h1 h2
    obtain rfl := List.length_eq_zero.mp hlen
    simp only [buildFields, Prod.mk.injEq] at h1
    obtain ⟨-, h1b⟩ := h1
    subst h1b
    simp [buildFields, h2]
  | cons g gs ih =>
    intro vpre f v post vpost out e out2 hlen h1 h2
    cases vpre with
    | nil => simp at hlen
    | cons u us =>
      simp only [List.length_cons] at hlen
      have hlen2 : us.length = gs.length := by omega
      simp only [buildFields] at h1
      rcases hg : buildF g u with ⟨rg, o1⟩
      simp only [hg] at h1
      cases rg with
      | error e0 => simp at h1
      | ok u0 =>
        rcases hgs : buildFields gs us with ⟨rgs, o2⟩
        simp only [hgs] at h1
        cases rgs with
        | error e0 => simp at h1
        | ok u1 =>
          simp only [Prod.mk.injEq] at h1
          obtain ⟨-, h1b⟩ := h1
          subst h1b
          rw [List.cons_append, List.cons_append]
          simp [buildFields, hg, ih us f v post vpost o2 e out2 hlen2 hgs h2,
            List.append_assoc]

lemma buildArray_ok_then_error :
    ∀ (f : Field) (vpre : List Value) (v : Value) (vpost : List Value)
      (out : List Nat) (e : GoErr) (out2 : List Nat),
    buildArray f vpre = (.ok (), out) →
    buildF f v = (.error e, out2) →
    buildArray f (vpre ++ v :: vpost) = (.error e, out ++ out2) := by
  intro f vpre
  induction vpre with
  | nil =>
    intro v vpost out e out2 h1 h2
    simp only [buildArray, Prod.mk.injEq] at h1
    obtain ⟨-, h1b⟩ := h1
    subst h1b
    simp [buildArray, h2]
  | cons u us ih =>
    intro v vpost out e out2 h1 h2
    simp only [buildArray] at h1
    rcases hg : buildF f u with ⟨rg, o1⟩
    simp only [hg] at h1
    cases rg with
    | error e0 => simp at h1
    | ok u0 =>
      rcases hgs : buildArray f us with ⟨rgs, o2⟩
      simp only [hgs] at h1
      cases rgs with
      | error e0 => simp at h1
      | ok u1 =>
        simp only [Prod.mk.injEq] at h1
        obtain ⟨-, h1b⟩ := h1
        subst h1b
        rw [List.cons_append]
        simp [buildArray, hg, ih v vpost o2 e out2 hgs h2, List.append_assoc]

lemma dropWhile_head_false {p : Nat → Bool} :
    ∀ (l : List Nat) (b : Nat) (l2 : List Nat),
    l.dropWhile p = b :: l2 → p b = false := by
  intro l
  induction l with
  | nil => intro b l2 h; simp [List.dropWhile] at h
  | cons a l ih =>
    intro b l2 h
    rw [List.dropWhile_cons] at h
    by_cases hp : p a
    · rw [if_pos hp] at h
      exact ih b l2 h
    · rw [if_neg hp] at h
      injection h with h1 h2
      subst h1
      simpa using hp

lemma trim_replicate (bs : List Nat) :
    ∃ k, bs = trimRightZeros bs ++ List.replicate k 0 := by
  refine ⟨(bs.reverse.takeWhile (fun b => b == 0)).length, ?_⟩
  have hrep : bs.reverse.takeWhile (fun b => b == 0) =
      List.replicate (bs.reverse.takeWhile (fun b => b == 0)).length 0 := by
    apply List.eq_replicate_of_mem
    intro b hb
    have := List.mem_takeWhile_imp hb
    simpa using this
  conv_lhs => rw [← List.reverse_reverse bs,
    ← List.takeWhile_append_dropWhile (p := fun b => b == 0) (l := bs.reverse)]
  rw [List.reverse_append, trimRightZeros]
  congr 1
  conv_lhs => rw [hrep]
  rw [List.reverse_replicate]

lemma trim_no_trailing_zero (bs t : List Nat) : trimRightZeros bs ≠ t ++ [0] := by
  intro h
  rw [trimRightZeros, List.reverse_eq_iff, List.reverse_append] at h
  have := dropWhile_head_false bs.reverse 0 t.reverse (by simpa using h)
  simp at this

end Helpers

/-- C1: for every scalar field type (Int8, Uint8, Int16be/le, Uint16be/le,
Int32be/le, Uint32be/le, Int64be, Uint64be, Float32be, Float64be) and every
value `v` of that field's declared Go type (floats identified with their
IEEE bit pattern, which is what `binary.Write`/`binary.Read` move),
building `v` and then parsing the produced bytes returns `v` unchanged and
consumes exactly the produced bytes. -/
theorem c1_scalar_build_parse_roundtrip (f : Field) (v : Value)
    (h : fitsField f v = true) :
    ∃ out, buildF f v = (.ok (), out) ∧ parseF f out = (.ok v, []) := by
  cases f <;> cases v <;>
    simp only [fitsField, decide_eq_true_eq, Bool.false_eq_true] at h
  case Int8.int8 i =>
    refine ⟨beBytes 1 (toUnsigned 8 i), ?_, ?_⟩
    · simp [buildF]
    · simp only [parseF]
      rw [parseScalar_exact 1 _ _ (beBytes_length 1 _)]
      simp only [beVal_beBytes 1 _ (toUnsigned8_lt i), signedRound8 i h.1 h.2]
  case Uint8.uint8 n =>
    refine ⟨beBytes 1 (n % 2 ^ 8), ?_, ?_⟩
    · simp [buildF]
    · rw [Nat.mod_eq_of_lt h]
      simp only [parseF]
      rw [parseScalar_exact 1 _ _ (beBytes_length 1 _)]
      simp only [beVal_beBytes 1 n (by norm_num at h ⊢; omega)]
  case Int16be.int16 i =>
    refine ⟨beBytes 2 (toUnsigned 16 i), ?_, ?_⟩
    · simp [buildF]
    · simp only [parseF]
      rw [parseScalar_exact 2 _ _ (beBytes_length 2 _)]
      simp only [beVal_beBytes 2 _ (toUnsigned16_lt i), signedRound16 i h.1 h.2]
  case Int16le.int16 i =>
    refine ⟨leBytes 2 (toUnsigned 16 i), ?_, ?_⟩
    · simp [buildF]
    · simp only [parseF]
      rw [parseScalar_exact 2 _ _ (leBytes_length 2 _)]
      simp only [leVal_leBytes 2 _ (toUnsigned16_lt i), signedRound16 i h.1 h.2]
  case Uint16be.uint16 n =>
    refine ⟨beBytes 2 (n % 2 ^ 16), ?_, ?_⟩
    · simp [buildF]
    · rw [Nat.mod_eq_of_lt h]
      simp only [parseF]
      rw [parseScalar_exact 2 _ _ (beBytes_length 2 _)]
      simp only [beVal_beBytes 2 n (by norm_num at h ⊢; omega)]
  case Uint16le.uint16 n =>
    refine ⟨leBytes 2 (n % 2 ^ 16), ?_, ?_⟩
    · simp [buildF]
    · rw [Nat.mod_eq_of_lt h]
      simp only [parseF]
      rw [parseScalar_exact 2 _ _ (leBytes_length 2 _)]
      simp only [leVal_leBytes 2 n (by norm_num at h ⊢; omega)]
  case Int32be.int32 i =>
    refine ⟨beBytes 4 (toUnsigned 32 i), ?_, ?_⟩
    · simp [buildF]
    · simp only [parseF]
      rw [parseScalar_exact 4 _ _ (beBytes_length 4 _)]
      simp only [beVal_beBytes 4 _ (toUnsigned32_lt i), signedRound32 i h.1 h.2]
  case Int32le.int32 i =>
    refine ⟨leBytes 4 (toUnsigned 32 i), ?_, ?_⟩
    · simp [buildF]
    · simp only [parseF]
      rw [parseScalar_exact 4 _ _ (leBytes_length 4 _)]
      simp only [leVal_leBytes 4 _ (toUnsigned32_lt i), signedRound32 i h.1 h.2]
  case Uint32be.uint32 n =>
    refine ⟨beBytes 4 (n % 2 ^ 32), ?_, ?_⟩
    · simp [buildF]
    · rw [Nat.mod_eq_of_lt h]
      simp only [parseF]
      rw [parseScalar_exact 4 _ _ (beBytes_length 4 _)]
      simp only [beVal_beBytes 4 n (by norm_num at h ⊢; omega)]
  case Uint32le.uint32 n =>
    refine ⟨leBytes 4 (n % 2 ^ 32), ?_, ?_⟩
    · simp [buildF]
    · rw [Nat.mod_eq_of_lt h]
      simp only [parseF]
      rw [parseScalar_exact 4 _ _ (leBytes_length 4 _)]
      simp only [leVal_leBytes 4 n (by norm_num at h ⊢; omega)]
  case Int64be.int64 i =>
    refine ⟨beBytes 8 (toUnsigned 64 i), ?_, ?_⟩
    · simp [buildF]
    · simp only [parseF]
      rw [parseScalar_exact 8 _ _ (beBytes_length 8 _)]
      simp only [beVal_beBytes 8 _ (toUnsigned64_lt i), signedRound64 i h.1 h.2]
  case Uint64be.uint64 n =>
    refine ⟨beBytes 8 (n % 2 ^ 64), ?_, ?_⟩
    · simp [buildF]
    · rw [Nat.mod_eq_of_lt h]
      simp only [parseF]
      rw [parseScalar_exact 8 _ _ (beBytes_length 8 _)]
      simp only [beVal_beBytes 8 n (by norm_num at h ⊢; omega)]
  case Float32be.float32 b =>
    refine ⟨beBytes 4 (b % 2 ^ 32), ?_, ?_⟩
    · simp [buildF]
    · rw [Nat.mod_eq_of_lt h]
      simp only [parseF]
      rw [parseScalar_exact 4 _ _ (beBytes_length 4 _)]
      simp only [beVal_beBytes 4 b (by norm_num at h ⊢; omega)]
  case Float64be.float64 b =>
    refine ⟨beBytes 8 (b % 2 ^ 64), ?_, ?_⟩
    · simp [buildF]
    · rw [Nat.mod_eq_of_lt h]
      simp only [parseF]
      rw [parseScalar_exact 8 _ _ (beBytes_length 8 _)]
      simp only [beVal_beBytes 8 b (by norm_num at h ⊢; omega)]

/-- Witness for C1: a concrete run at field `Int16be` and the negative
value `-2`, discharging the range hypothesis by evaluation. -/
theorem c1_scalar_build_parse_roundtrip_witness :
    fitsField .Int16be (.int16 (-2)) = true ∧
    ∃ out, buildF .Int16be (.int16 (-2)) = (.ok (), out) ∧
      parseF .Int16be out = (.ok (.int16 (-2)), []) := by
  refine ⟨by decide, c1_scalar_build_parse_roundtrip _ _ (by decide)⟩

/-- C2: for the layout `Struct{Byte, Int32be, String{Length: 5}}`, parsing
the ten bytes `FF 00 00 00 64 54 65 73 74 00` succeeds, consumes them all
and yields the sequence (byte `0xFF`, int32 `100`, string "Test" — bytes
`54 65 73 74`), and building that same sequence writes back exactly those
ten bytes. -/
theorem c2_struct_end_to_end :
    parseF (.Struct [.Byte, .Int32be, .String 5])
        [0xFF, 0x00, 0x00, 0x00, 0x64, 0x54, 0x65, 0x73, 0x74, 0x00] =
      (.ok (.list [.uint8 0xFF, .int32 100, .str [0x54, 0x65, 0x73, 0x74]]), []) ∧
    buildF (.Struct [.Byte, .Int32be, .String 5])
        (.list [.uint8 0xFF, .int32 100, .str [0x54, 0x65, 0x73, 0x74]]) =
      (.ok (), [0xFF, 0x00, 0x00, 0x00, 0x64, 0x54, 0x65, 0x73, 0x74, 0x00]) := by
  constructor
  · simp +decide [parseF, parseFields, parseScalar, readFull, beVal, fromUnsigned,
      trimRightZeros]
  · simp +decide [buildF, buildFields, beBytes, toUnsigned]

/-- C7: a scalar field's `Build`, given a value whose runtime type differs
from the field's declared type (any different width, signedness or kind),
fails with the field's type-assertion message and writes nothing. -/
theorem c7_scalar_build_type_mismatch (f : Field) (v : Value)
    (hs : isScalar f = true) (hm : typeMatches f v = false) :
    buildF f v = (.error (.msg (scalarTypeMsg f)), []) := by
  cases f <;> simp only [isScalar, Bool.false_eq_true] at hs <;>
    cases v <;> simp only [typeMatches, Bool.true_eq_false] at hm <;>
    simp [buildF, scalarTypeMsg]

/-- Witness for C7: an `int64` value supplied to an `Int32be` field fails
with "expected int32" and writes nothing — no narrowing happens. -/
theorem c7_scalar_build_type_mismatch_witness :
    buildF .Int32be (.int64 5) = (.error (.msg "expected int32"), []) :=
  c7_scalar_build_type_mismatch .Int32be (.int64 5) (by decide) (by decide)

/-- C10: the empty `Struct` and the `Array` of count 0 parse successfully
on every source (including an exhausted one), consuming nothing and
returning the empty sequence; building the empty `[]any` with them
succeeds and writes nothing. -/
theorem c10_empty_composites (f : Field) (input : List Nat) :
    parseF (.Struct []) input = (.ok (.list []), input) ∧
    parseF (.Array 0 f) input = (.ok (.list []), input) ∧
    buildF (.Struct []) (.list []) = (.ok (), []) ∧
    buildF (.Array 0 f) (.list []) = (.ok (), []) := by
  refine ⟨?_, ?_, ?_, ?_⟩ <;>
    simp [parseF, buildF, parseFields, parseArray, buildFields, buildArray]

/-- C3: for every `Struct` and every `Array`, when the fields before
position `i` parse successfully and the field at position `i` fails,
`Parse` of the whole composite returns exactly that sub-error (so no
partial value sequence), and leaves the source exactly where the failing
sub-parse left it — the bytes consumed by the earlier fields and by the
failing field are not un-consumed. -/
theorem c3_parse_error_propagation :
    (∀ (pre : List Field) (f : Field) (post : List Field) (input : List Nat)
       (vs : List Value) (rest : List Nat) (e : GoErr) (rest2 : List Nat),
      parseFields pre input = (.ok vs, rest) →
      parseF f rest = (.error e, rest2) →
      parseF (.Struct (pre ++ f :: post)) input = (.error e, rest2)) ∧
    (∀ (f : Field) (k m : Nat) (input : List Nat) (vs : List Value)
       (rest : List Nat) (e : GoErr) (rest2 : List Nat),
      parseArray f k input = (.ok vs, rest) →
      parseF f rest = (.error e, rest2) →
      parseF (.Array (k + (m + 1)) f) input = (.error e, rest2)) := by
  constructor
  · intro pre f post input vs rest e rest2 h1 h2
    simp [parseF, parseFields_ok_then_error pre f post input vs rest e rest2 h1 h2]
  · intro f k m input vs rest e rest2 h1 h2
    simp [parseF, parseArray_ok_then_error f k m input vs rest e rest2 h1 h2]

/-- Witness for C3: a two-field struct whose second field under-reads an
exhausted source fails with `io.EOF`, and a two-element array whose second
element finds one of its two bytes fails with `io.ErrUnexpectedEOF`; both
drain the source. -/
theorem c3_parse_error_propagation_witness :
    parseF (.Struct [.Uint16be, .Uint8]) [7, 8] = (.error .eof, []) ∧
    parseF (.Array 2 .Uint16be) [7, 8, 9] = (.error .unexpectedEOF, []) := by
  have h := c3_parse_error_propagation
  constructor
  · exact h.1 [.Uint16be] .Uint8 [] [7, 8] [.uint16 1800] [] .eof []
      (by simp [parseFields, parseF, parseScalar, readFull, beVal])
      (by simp [parseF, parseScalar, readFull])
  · have := h.2 .Uint16be 1 0 [7, 8, 9] [.uint16 1800] [9] .unexpectedEOF []
      (by simp [parseArray, parseF, parseScalar, readFull, beVal])
      (by simp [parseF, parseScalar, readFull])
    simpa using this

/-- C4: `Struct.Build` on a `[]any` whose length differs from the field
count fails with the count-mismatch error and writes nothing, and likewise
`Array.Build` when the sequence length differs from `Count`; with matching
lengths, both encode elements in order and abort on the first sub-failure,
keeping the bytes already written (no rollback). -/
theorem c4_build_count_mismatch_and_abort :
    (∀ (fs : List Field) (vs : List Value), vs.length ≠ fs.length →
      buildF (.Struct fs) (.list vs) =
        (.error (.msg "mismatch between struct fields and provided values"), [])) ∧
    (∀ (n : Nat) (f : Field) (vs : List Value), vs.length ≠ n →
      buildF (.Array n f) (.list vs) = (.error (.msg "array length mismatch"), [])) ∧
    (∀ (pre : List Field) (f : Field) (post : List Field) (vpre : List Value)
       (v : Value) (vpost : List Value) (out : List Nat) (e : GoErr) (out2 : List Nat),
      vpre.length = pre.length → vpost.length = post.length →
      buildFields pre vpre = (.ok (), out) →
      buildF f v = (.error e, out2) →
      buildF (.Struct (pre ++ f :: post)) (.list (vpre ++ v :: vpost)) =
        (.error e, out ++ out2)) ∧
    (∀ (f : Field) (vpre : List Value) (v : Value) (vpost : List Value)
       (out : List Nat) (e : GoErr) (out2 : List Nat),
      buildArray f vpre = (.ok (), out) →
      buildF f v = (.error e, out2) →
      buildF (.Array (vpre ++ v :: vpost).length f) (.list (vpre ++ v :: vpost)) =
        (.error e, out ++ out2)) := by
  refine ⟨?_, ?_, ?_, ?_⟩
  · intro fs vs h
    simp only [buildF]
    rw [if_neg h]
  · intro n f vs h
    simp only [buildF]
    rw [if_neg h]
  · intro pre f post vpre v vpost out e out2 hlen1 hlen2 h1 h2
    simp only [buildF]
    rw [if_pos (by simp [List.length_append, hlen1, hlen2])]
    exact buildFields_ok_then_error pre vpre f v post vpost out e out2 hlen1 h1 h2
  · intro f vpre v vpost out e out2 h1 h2
    simp only [buildF]
    rw [if_pos trivial]
    exact buildArray_ok_then_error f vpre v vpost out e out2 h1 h2

/-- Witness for C4: a one-field struct given zero values and a
two-element array given one value fail with the count-mismatch messages
writing nothing; a struct and an array whose second element has the wrong
runtime type abort after the first element's byte is already written. -/
theorem c4_build_count_mismatch_and_abort_witness :
    buildF (.Struct [.Uint8]) (.list []) =
      (.error (.msg "mismatch between struct fields and provided values"), []) ∧
    buildF (.Array 2 .Uint8) (.list [.uint8 1]) =
      (.error (.msg "array length mismatch"), []) ∧
    buildF (.Struct [.Uint8, .Int8]) (.list [.uint8 1, .uint8 2]) =
      (.error (.msg "expected int8"), [1]) ∧
    buildF (.Array 2 .Uint8) (.list [.uint8 1, .int8 2]) =
      (.error (.msg "expected uint8"), [1]) := by
  have h := c4_build_count_mismatch_and_abort
  refine ⟨?_, ?_, ?_, ?_⟩
  · exact h.1 [.Uint8] [] (by simp)
  · exact h.2.1 2 .Uint8 [.uint8 1] (by simp)
  · have := h.2.2.1 [.Uint8] .Int8 [] [.uint8 1] (.uint8 2) [] [1]
      (.msg "expected int8") [] (by simp) (by simp)
      (by simp [buildFields, buildF, beBytes]) (by simp [buildF])
    simpa using this
  · have := h.2.2.2 .Uint8 [.uint8 1] (.int8 2) [] [1] (.msg "expected uint8") []
      (by simp [buildArray, buildF, beBytes]) (by simp [buildF])
    simpa using this

/-- C5: a fixed-length `String` field of byte length `n` parses any
`n`-byte prefix by consuming exactly those `n` bytes and returning them
with the trailing run of zero bytes removed; what is removed really is
only the trailing run — the kept prefix never ends in a zero byte, and the
input is the kept prefix plus a run of zeros, so zeros followed by later
non-zero bytes survive.  Consequently encoding "Hi" (`48 69`) with length
5 and decoding yields "Hi" again, never "Hi" plus three zero bytes. -/
theorem c5_string_parse_trailing_zero_strip :
    (∀ (n : Nat) (bs rest : List Nat), bs.length = n →
      parseF (.String n) (bs ++ rest) = (.ok (.str (trimRightZeros bs)), rest)) ∧
    (∀ bs : List Nat, ∃ k, bs = trimRightZeros bs ++ List.replicate k 0) ∧
    (∀ bs t : List Nat, trimRightZeros bs ≠ t ++ [0]) ∧
    buildF (.String 5) (.str [72, 105]) = (.ok (), [72, 105, 0, 0, 0]) ∧
    parseF (.String 5) [72, 105, 0, 0, 0] = (.ok (.str [72, 105]), []) := by
  refine ⟨?_, trim_replicate, trim_no_trailing_zero, ?_, ?_⟩
  · intro n bs rest h
    subst h
    simp [parseF, readFull_exact]
  · simp +decide [buildF]
  · simp +decide [parseF, readFull, trimRightZeros]

/-- Witness for C5: parsing 4 bytes `01 00 02 00` (with a byte `09` left
over) keeps the embedded zero and strips only the final one. -/
theorem c5_string_parse_trailing_zero_strip_witness :
    parseF (.String 4) [1, 0, 2, 0, 9] = (.ok (.str [1, 0, 2]), [9]) := by
  have h2 := c5_string_parse_trailing_zero_strip.1 4 [1, 0, 2, 0] [9] (by simp)
  have h3 : trimRightZeros [1, 0, 2, 0] = [1, 0, 2] := by decide
  rw [h3] at h2
  simpa using h2

/-- C6: a fixed-length `String` field of byte length `n` builds any string
by writing exactly `n` bytes: the string truncated to its first `n` bytes,
zero-padded back up to `n` — a shorter string is zero-padded, a longer one
is silently truncated, never rejected. -/
theorem c6_string_build_pad_truncate (n : Nat) (s : List Nat) :
    buildF (.String n) (.str s) =
      (.ok (), s.take n ++ List.replicate (n - s.length) 0) ∧
    (s.take n ++ List.replicate (n - s.length) 0).length = n ∧
    (s.length ≤ n →
      s.take n ++ List.replicate (n - s.length) 0 =
        s ++ List.replicate (n - s.length) 0) ∧
    (n ≤ s.length → s.take n ++ List.replicate (n - s.length) 0 = s.take n) := by
  refine ⟨by simp [buildF], ?_, ?_, ?_⟩
  · simp only [List.length_append, List.length_take, List.length_replicate]
    omega
  · intro h
    rw [List.take_of_length_le h]
  · intro h
    have h0 : n - s.length = 0 := by omega
    simp [h0]

/-- Witness for C6: "Hi" under length 3 is padded to `48 69 00`; "Hij"
under length 2 is truncated to `48 69` without an error. -/
theorem c6_string_build_pad_truncate_witness :
    buildF (.String 3) (.str [72, 105]) = (.ok (), [72, 105, 0]) ∧
    buildF (.String 2) (.str [72, 105, 106]) = (.ok (), [72, 105]) := by
  have h3 := (c6_string_build_pad_truncate 3 [72, 105]).1
  have h2 := (c6_string_build_pad_truncate 2 [72, 105, 106]).1
  have e3 : List.take 3 [72, 105] ++ List.replicate (3 - List.length [72, 105]) 0 =
      [72, 105, 0] := by decide
  have e2 : List.take 2 [72, 105, 106] ++
      List.replicate (2 - List.length [72, 105, 106]) 0 = [72, 105] := by decide
  rw [e3] at h3
  rw [e2] at h2
  exact ⟨h3, h2⟩

/-- C8: an `Enum` wrapping an integer sub-field decodes an integer code
absent from its mapping by returning the raw integer value unchanged —
never an error; in particular an Enum over a 1-byte field with mapping
0 ↦ "Grayscale", 2 ↦ "Truecolor" decodes byte 5 to the integer 5. -/
theorem c8_enum_unknown_code_fallback :
    (∀ (sub : Field) (mapping : List (Int × List Nat)) (input : List Nat)
       (v : Value) (rest : List Nat) (key : Int),
      parseF sub input = (.ok v, rest) →
      valueToInt v = some key →
      mapping.lookup key = none →
      parseF (.Enum sub mapping) input = (.ok v, rest)) ∧
    parseF (.Enum .Uint8
        [(0, [71, 114, 97, 121, 115, 99, 97, 108, 101]),
         (2, [84, 114, 117, 101, 99, 111, 108, 111, 114])]) [5] =
      (.ok (.uint8 5), []) := by
  constructor
  · intro sub mapping input v rest key h1 h2 h3
    simp [parseF, h1, h2, h3]
  · simp +decide [parseF, parseScalar, readFull, beVal, valueToInt, List.lookup]

/-- Witness for C8: an Enum with an empty mapping decodes byte 7 to the
raw integer 7 by the fallback rule. -/
theorem c8_enum_unknown_code_fallback_witness :
    parseF (.Enum .Uint8 []) [7] = (.ok (.uint8 7), []) := by
  have h := c8_enum_unknown_code_fallback
  exact h.1 .Uint8 [] [7] (.uint8 7) [] 7
    (by simp [parseF, parseScalar, readFull, beVal])
    (by simp [valueToInt])
    (by simp [List.lookup])

/-- C9: a `Signature` field with expected byte sequence `expected` decodes
any input holding at least that many bytes by reading exactly that many,
succeeding with the matched bytes when they equal `expected` byte-for-byte
and failing with `SignatureMismatch` exactly otherwise. -/
theorem c9_signature_check :
    ∀ (expected bs rest : List Nat), bs.length = expected.length →
      parseF (.Signature expected) (bs ++ rest) =
        if bs = expected then (.ok (.bytes bs), rest)
        else (.error .signatureMismatch, rest) := by
  intro expected bs rest h
  simp only [parseF]
  rw [← h, readFull_exact]

/-- Witness for C9: with expectation `89 50 4E 47`, decoding `89 50 4E 48`
fails with `SignatureMismatch` and decoding `89 50 4E 47` returns those
four bytes. -/
theorem c9_signature_check_witness :
    parseF (.Signature [0x89, 0x50, 0x4E, 0x47]) [0x89, 0x50, 0x4E, 0x48] =
      (.error .signatureMismatch, []) ∧
    parseF (.Signature [0x89, 0x50, 0x4E, 0x47]) [0x89, 0x50, 0x4E, 0x47] =
      (.ok (.bytes [0x89, 0x50, 0x4E, 0x47]), []) := by
  have h := c9_signature_check
  constructor
  · have := h [0x89, 0x50, 0x4E, 0x47] [0x89, 0x50, 0x4E, 0x48] [] (by simp)
    simpa +decide using this
  · have := h [0x89, 0x50, 0x4E, 0x47] [0x89, 0x50, 0x4E, 0x47] [] rfl
    simpa using this

end Construct
